import Mathlib

/-!
Verification of the DataMigrationTool migration orchestration layer.

The Go source is shallowly embedded here:
* records (`map[string]interface{}`) are ordered association lists of
  field name to a tagged scalar `Value`;
* machine integers (`int`, `int64`) are `Int` (or `Nat` where the source
  value is provably a length/counter);
* fallible calls return `Option String` / `Except String _` errors;
* the in-memory database client used by the repository's own engine tests
  (`MockDatabaseClient` in `migration/engine_test.go`) is the environment
  through which the engine, validator and snapshot manager are exercised;
* loops whose termination depends on run-time data (the batch-processor
  loop of `database/worker_pool.go`) are given explicit fuel, with a
  distinguished out-of-fuel outcome, so that non-termination is statable.
-/

namespace DataMigration

/-- A dynamically typed scalar cell of a row/document. -/
inductive Value where
  | vInt (n : Int)
  | vStr (s : String)
  | vBool (b : Bool)
  | vNull
  deriving DecidableEq, Repr

/-- One row/document: an ordered field-name to value mapping
(Go `map[string]interface{}`). -/
abbrev Rec := List (String × Value)

/-- Go map assignment `row[k] = v`: overwrite the binding if the key is
present, otherwise add it. -/
def setField (k : String) (v : Value) (r : Rec) : Rec :=
  if r.any (fun p => p.1 = k) then
    r.map (fun p => if p.1 = k then (k, v) else p)
  else
    r ++ [(k, v)]

/-- Go map read `row[k]`: first binding of the key, if any. -/
def getField (r : Rec) (k : String) : Option Value :=
  match r.find? (fun p => p.1 = k) with
  | some p => some p.2
  | none => none

/-! ## Batch processor (`database/worker_pool.go`, `ProcessInBatches`)

The Go loop is
```
for i := 0; i < len(data); i += bp.batchSize {
    end := i + bp.batchSize
    if end > len(data) { end = len(data) }
    batch := data[i:end]
    if err := processFunc(batch); err != nil { return ... }
}
```
`batchSize` is a Go `int`, so the loop need not terminate; the embedding
takes explicit fuel.  The result carries the trace of chunks actually
passed to `processFunc`, the Go slice-bounds panic (`data[i:end]` with
`end < i`, which happens for negative `batchSize`) is a distinguished
outcome. -/

/-- Outcome of running `ProcessInBatches` with a given amount of fuel:
normal completion, stop at the first failing chunk, a slice-bounds panic,
or fuel exhaustion.  Each data-carrying outcome records the trace of
chunks handed to the import function. -/
inductive PBResult where
  | ok (chunks : List (List Rec))
  | err (chunks : List (List Rec)) (msg : String)
  | panicked (chunks : List (List Rec))
  | outOfFuel
  deriving DecidableEq, Repr

/-- The loop body of `ProcessInBatches`, fueled.  `i` is the Go loop
index; it is kept as a `Nat` because the index only advances when the
slice did not panic, and absence of panic forces `batchSize ≥ 0` there
(the slice end `stop` is `≥ i` exactly when the step is non-negative),
so the Go `int` index can never actually go negative. -/
def processInBatchesAux (importFn : List Rec → Option String) (batchSize : Int)
    (data : List Rec) : Nat → Nat → List (List Rec) → PBResult
  | 0, _, _ => .outOfFuel
  | fuel + 1, i, trace =>
    if i < data.length then
      let stop := if (i : Int) + batchSize > (data.length : Int) then (data.length : Int)
                  else (i : Int) + batchSize
      if stop < (i : Int) then .panicked trace
      else
        let batch := (data.drop i).take (stop - i).toNat
        match importFn batch with
        | some msg => .err (trace ++ [batch]) msg
        | none => processInBatchesAux importFn batchSize data fuel
            (((i : Int) + batchSize).toNat) (trace ++ [batch])
    else .ok trace

/-- `BatchProcessor.ProcessInBatches`: an empty record list returns
immediately (nil error, no call to the import function); otherwise the
loop runs from index 0. -/
def ProcessInBatches (importFn : List Rec → Option String) (batchSize : Int)
    (data : List Rec) (fuel : Nat) : PBResult :=
  if data.length = 0 then .ok []
  else processInBatchesAux importFn batchSize data fuel 0 []

/-- Closed-form companion of the batch loop for positive batch size
`b + 1`: structural recursion peeling one chunk at a time.  Returns the
chunk trace and the first error, if any. -/
def batchRun (importFn : List Rec → Option String) (b : Nat) :
    List Rec → List (List Rec) × Option String
  | [] => ([], none)
  | x :: xs =>
    let batch := (x :: xs).take (b + 1)
    match importFn batch with
    | some msg => ([batch], some msg)
    | none =>
      let r := batchRun importFn b (xs.drop b)
      (batch :: r.1, r.2)
  termination_by l => l.length
  decreasing_by
    simp only [List.length_drop, List.length_cons]
    omega

/-- The chunk with index `k` for batch size `B`: the slice
`data[k*B : min((k+1)*B, L)]`. -/
def chunkAt (B : Nat) (data : List Rec) (k : Nat) : List Rec :=
  (data.drop (k * B)).take B

/-- Number of chunks: `ceil(L / B)` for `B ≥ 1`. -/
def numChunks (B L : Nat) : Nat := (L + B - 1) / B

/-! ## Worker pool (`database/worker_pool.go`)

Each submitted table yields exactly one `TableResult` on the result
channel (the worker loop builds one per job); results may be consumed in
any order.  The channel nondeterminism is modelled by an explicit
`arrival` list that is a permutation of the submitted table list. -/

/-- The per-table fetch outcome published by a worker. -/
structure TableResult where
  tableName : String
  data : List Rec
  error : Option String
  deriving DecidableEq, Repr

/-- Tag every row of a table with its origin
(`row["_source_table"] = table`). -/
def tagRows (t : String) (rows : List Rec) : List Rec :=
  rows.map (setField "_source_table" (Value.vStr t))

/-- What one worker does with one `TableJob`: fetch the single table and
publish a `TableResult` (data is Go `nil` on error). -/
def runTableJob (fetch : String → Except String (List Rec)) (t : String) : TableResult :=
  match fetch t with
  | .ok d => { tableName := t, data := d, error := none }
  | .error e => { tableName := t, data := [], error := some e }

/-- The multiset of results read off the result channel, in arrival
order. -/
def workerPoolResults (fetch : String → Except String (List Rec))
    (arrival : List String) : List TableResult :=
  arrival.map (runTableJob fetch)

/-- The collector loop body of `ProcessTablesWithWorkerPool`: an errored
result appends to the error list and skips aggregation (`continue`); a
successful result has its rows tagged and appended. -/
def collectStep (acc : List Rec × List String) (r : TableResult) : List Rec × List String :=
  match r.error with
  | some e =>
    (acc.1, acc.2 ++ ["error processing table " ++ r.tableName ++ ": " ++ e])
  | none => (acc.1 ++ tagRows r.tableName r.data, acc.2)

/-- `ProcessTablesWithWorkerPool`.  `numWorkers` bounds parallelism only
and does not influence the set of results.  Returns all aggregated rows
only when no table failed; if any table failed the rows are discarded
and the first error is reported. -/
def ProcessTablesWithWorkerPool (fetch : String → Except String (List Rec))
    (tables : List String) (_numWorkers : Int) (arrival : List String) :
    Except String (List Rec) :=
  if tables.length = 0 then .error "no tables to process"
  else
    let collected := (workerPoolResults fetch arrival).foldl collectStep ([], [])
    match collected.2 with
    | e :: _ =>
      .error ("failed to process " ++ toString collected.2.length ++ " tables: " ++ e)
    | [] => .ok collected.1

/-! ## In-memory database client (`migration/engine_test.go`,
`MockDatabaseClient`)

The repository's own engine tests exercise the engine through this
client; it is the environment for the engine, validator and snapshot
manager claims.  `failOnFetch = ""` means "never fail" (the Go zero
value). -/

structure MockClient where
  mockData : List (String × List Rec)
  failOnFetch : String
  failOnImport : Bool
  importedData : List Rec
  fetchCalled : Nat
  importCalled : Nat
  deriving DecidableEq, Repr

/-- Go map read `m.mockData[table]` with its `exists` flag. -/
def lookupTable (m : List (String × List Rec)) (t : String) : Option (List Rec) :=
  match m.find? (fun p => p.1 = t) with
  | some p => some p.2
  | none => none

/-- `MockDatabaseClient.FetchAllData`: bump the call counter, fail when
one of the requested tables equals the non-empty `failOnFetch`, else
return the requested tables' rows tagged with their origin. -/
def MockClient.fetchAllData (m : MockClient) (tables : List String) :
    MockClient × Except String (List Rec) :=
  let m1 := { m with fetchCalled := m.fetchCalled + 1 }
  if m.failOnFetch ≠ "" ∧ tables.contains m.failOnFetch then
    (m1, .error ("mock fetch error for tables " ++ m.failOnFetch))
  else
    (m1, .ok (tables.flatMap (fun t =>
      match lookupTable m.mockData t with
      | some rows => tagRows t rows
      | none => [])))

/-- `MockDatabaseClient.FetchAllDataConcurrently` just delegates. -/
def MockClient.fetchAllDataConcurrently (m : MockClient) (tables : List String)
    (_numWorkers : Int) : MockClient × Except String (List Rec) :=
  m.fetchAllData tables

/-- `MockDatabaseClient.ImportData`: bump the call counter, fail when
configured to, else append the rows to the imported set. -/
def MockClient.importData (m : MockClient) (data : List Rec) :
    MockClient × Option String :=
  let m1 := { m with importCalled := m.importCalled + 1 }
  if m.failOnImport then (m1, some "mock import err failed")
  else ({ m1 with importedData := m1.importedData ++ data }, none)

/-! ## Validator (`validation/validator.go`)

The Go `TimeStamp` field (wall-clock time of the check) carries no
information the claims touch and is dropped from the embedding. -/

structure ValidationResult where
  tableName : String
  isValid : Bool
  errorMessage : String
  rowCount : Int
  sampleData : List Rec
  deriving DecidableEq, Repr

/-- The per-table loop of `PreMigrationValidation`, threading the source
client (whose fetch counter advances per table). -/
def preMigrationValidationLoop (sampleSize : Nat) (source : MockClient) :
    List String → MockClient × List ValidationResult
  | [] => (source, [])
  | t :: rest =>
    let fr := source.fetchAllData [t]
    match fr.2 with
    | .error e =>
      let result : ValidationResult :=
        { tableName := t, isValid := false,
          errorMessage := "Failed to fetch data from the source table " ++ t ++ ":" ++ e,
          rowCount := 0, sampleData := [] }
      let r := preMigrationValidationLoop sampleSize fr.1 rest
      (r.1, result :: r.2)
    | .ok sourceData =>
      let sz := if sourceData.length < sampleSize then sourceData.length else sampleSize
      let result : ValidationResult :=
        { tableName := t, isValid := true, errorMessage := "",
          rowCount := (sourceData.length : Int), sampleData := sourceData.take sz }
      let r := preMigrationValidationLoop sampleSize fr.1 rest
      (r.1, result :: r.2)

/-- `PreMigrationValidation`: one result per table, in table order.  The
Go function's `error` return value is `nil` on every path, which the
last component records. -/
def PreMigrationValidation (sampleSize : Nat) (source : MockClient)
    (tables : List String) : MockClient × List ValidationResult × Option String :=
  let r := preMigrationValidationLoop sampleSize source tables
  (r.1, r.2, none)

/-- The rows `fetchAllData` yields for one table of the mock client:
the stored rows tagged with their origin, or none for an unknown
table. -/
def sourceTableRows (m : MockClient) (t : String) : List Rec :=
  match lookupTable m.mockData t with
  | some rows => tagRows t rows
  | none => []

/-- Specification closed form of one `PreMigrationValidation` entry,
proved below to equal what the threaded loop computes per table. -/
def preValidationSpec (source : MockClient) (sampleSize : Nat) (t : String) :
    ValidationResult :=
  if source.failOnFetch ≠ "" ∧ t = source.failOnFetch then
    { tableName := t, isValid := false,
      errorMessage := "Failed to fetch data from the source table " ++ t
        ++ ":" ++ ("mock fetch error for tables " ++ source.failOnFetch),
      rowCount := 0, sampleData := [] }
  else
    { tableName := t, isValid := true, errorMessage := "",
      rowCount := ((sourceTableRows source t).length : Int),
      sampleData := (sourceTableRows source t).take sampleSize }

/-- `preResultMap` lookup: the Go map is built by overwriting per table
name, so the last occurrence wins. -/
def lookupLast (results : List ValidationResult) (t : String) : Option ValidationResult :=
  results.reverse.find? (fun r => r.tableName = t)

/-- Strip the `_source_table` metadata field. -/
def stripMeta (r : Rec) : Rec := r.filter (fun p => p.1 ≠ "_source_table")

/-- Go `fmt.Sprintf("%v", v)` on the scalar values of the model. -/
def valueToString : Value → String
  | .vInt n => toString n
  | .vStr s => s
  | .vBool b => if b then "true" else "false"
  | .vNull => "<nil>"

/-- Go map read that yields a `nil` interface both for a missing key and
for a stored `nil` value. -/
def goValue (r : Rec) (k : String) : Option Value :=
  match getField r k with
  | some Value.vNull => none
  | some v => some v
  | none => none

/-- `compareValues`: nil-aware string-normalized equality. -/
def compareValues (v1 v2 : Option Value) : Bool :=
  match v1, v2 with
  | none, none => true
  | none, some _ => false
  | some _, none => false
  | some a, some c => valueToString a = valueToString c

/-- One row comparison of `validateSampleDataIntegrity`: the heuristic
"primary key" is the first non-metadata field of the source row (the Go
map iteration order is arbitrary; the embedding determinizes it to the
record's field order).  An empty clean row skips the check. -/
def checkSampleRow (sourceRow targetRow : Rec) (i : Nat) : Option String :=
  match stripMeta sourceRow with
  | [] => none
  | (k, _) :: _ =>
    if compareValues (goValue (stripMeta sourceRow) k) (goValue (stripMeta targetRow) k) then
      none
    else some ("primary key mismatch in row " ++ toString i)

/-- The `for i := 0; i < checkRows; i++` comparison loop. -/
def checkRowsLoop (sourceData targetData : List Rec) : List Nat → Option String
  | [] => none
  | i :: rest =>
    match checkSampleRow (sourceData.getD i []) (targetData.getD i []) i with
    | some e => some e
    | none => checkRowsLoop sourceData targetData rest

/-- `validateSampleDataIntegrity`. -/
def validateSampleDataIntegrity (sourceData targetData : List Rec) : Option String :=
  if sourceData.length = 0 ∧ targetData.length = 0 then none
  else if sourceData.length ≠ targetData.length then
    some "sample data length mismatch"
  else
    let checkRows := if sourceData.length < 5 then sourceData.length else 5
    checkRowsLoop sourceData targetData (List.range checkRows)

/-- The per-table loop of `PostMigationValidation`, fetching from the
target client. -/
def postMigationValidationLoop (sampleSize : Nat) (preResults : List ValidationResult)
    (target : MockClient) : List String → MockClient × List ValidationResult
  | [] => (target, [])
  | t :: rest =>
    let fr := target.fetchAllData [t]
    let result : ValidationResult :=
      match fr.2 with
      | .error e =>
        { tableName := t, isValid := false,
          errorMessage := "Failed to fetch data from target table " ++ t ++ ", " ++ e,
          rowCount := 0, sampleData := [] }
      | .ok targetData =>
        match lookupLast preResults t with
        | none =>
          { tableName := t, isValid := false,
            errorMessage := "No prevalidation data found for table " ++ t,
            rowCount := (targetData.length : Int), sampleData := [] }
        | some preResult =>
          if (targetData.length : Int) ≠ preResult.rowCount then
            { tableName := t, isValid := false,
              errorMessage := "Row count mismatch, expected source: "
                ++ toString preResult.rowCount ++ ", got target: "
                ++ toString (targetData.length : Int),
              rowCount := (targetData.length : Int), sampleData := [] }
          else if targetData.length > 0 then
            let sz := if targetData.length < sampleSize then targetData.length else sampleSize
            let sample := targetData.take sz
            match validateSampleDataIntegrity preResult.sampleData sample with
            | some e =>
              { tableName := t, isValid := false,
                errorMessage := "Data integrity Validation failed, " ++ e,
                rowCount := (targetData.length : Int), sampleData := sample }
            | none =>
              { tableName := t, isValid := true, errorMessage := "",
                rowCount := (targetData.length : Int), sampleData := sample }
          else
            { tableName := t, isValid := true, errorMessage := "",
              rowCount := (targetData.length : Int), sampleData := [] }
    let r := postMigationValidationLoop sampleSize preResults fr.1 rest
    (r.1, result :: r.2)

/-- Summary reduction `GenerateValidationSummary` (the Go
`ValidationTime` duration field is dropped). -/
structure ValidationSummary where
  totalTables : Nat
  validTables : Nat
  invalidTables : Nat
  totalRows : Int
  errors : List String
  deriving DecidableEq, Repr

def generateValidationSummary (results : List ValidationResult) : ValidationSummary :=
  results.foldl
    (fun s r =>
      if r.isValid then
        { s with totalRows := s.totalRows + r.rowCount, validTables := s.validTables + 1 }
      else
        { s with
          totalRows := s.totalRows + r.rowCount,
          invalidTables := s.invalidTables + 1,
          errors := s.errors ++ ["Table " ++ r.tableName ++ ":" ++ r.errorMessage] })
    { totalTables := results.length, validTables := 0, invalidTables := 0,
      totalRows := 0, errors := [] }

/-! ## Migration engine (`migration/engine.go`)

`MigrationMode` is a Go string type; the dispatch has a default branch
for unknown modes, so the embedding keeps the mode a `String`.  The
engine's `ValidateDataTypes` callee lives in a validator source file not
present under `src/` (only its call site and tests are); the engine is
therefore parametrized by it, and no claim depends on its behaviour.
Wall-clock fields (start/end time, duration) and the progress
tracker/logger (counters and log lines only) are dropped. -/

structure MigrationConfig where
  mode : String
  sourceDb : String
  targetDb : String
  tables : List String
  workers : Int
  batchSize : Int
  concurrent : Bool
  validateData : Bool
  createBackup : Bool
  incrementalColumn : String
  deriving DecidableEq, Repr

structure MigrationResult where
  success : Bool
  totalTablesProcessed : Nat
  totalRowsMigrated : Int
  preValidation : List ValidationResult
  postValidation : List ValidationResult
  errors : List String
  deriving DecidableEq, Repr

def emptyResult : MigrationResult :=
  { success := false, totalTablesProcessed := 0, totalRowsMigrated := 0,
    preValidation := [], postValidation := [], errors := [] }

/-- Final state of `ExecuteMigration`: the returned result and error,
plus both client states. -/
structure EngineOutcome where
  result : MigrationResult
  err : Option String
  source : MockClient
  target : MockClient
  deriving DecidableEq, Repr

/-- `importDataWithBatchTracking`'s loop.  Faithfully to the source, the
index advances by ONE (`i++`), not by `batchSize`, so consecutive
batches overlap whenever `batchSize > 1`.  (For `batchSize ≤ 0` the Go
slice `data[i:end]` would panic; every call site in the claims uses a
positive batch size, and the embedding clamps via `toNat`.) -/
def importBatchTrackingGo (batchSize : Int) (data : List Rec) :
    Nat → MockClient → Nat → MockClient × Option String
  | 0, target, _ => (target, none)
  | fuel + 1, target, i =>
    if i < data.length then
      let stop := if (i : Int) + batchSize > (data.length : Int) then (data.length : Int)
                  else (i : Int) + batchSize
      let batch := (data.drop i).take (stop - (i : Int)).toNat
      let step := target.importData batch
      match step.2 with
      | some msg => (step.1, some ("failed to import batch, " ++ msg))
      | none => importBatchTrackingGo batchSize data fuel step.1 (i + 1)
    else (target, none)

/-- Entry point: the loop performs exactly `len(data) - i` iterations
(the index strictly increases by one until it reaches the length), so
structural recursion on that count is exact — the base case of
`importBatchTrackingGo` coincides with the loop's exit condition. -/
def importDataWithBatchTracking (batchSize : Int) (data : List Rec)
    (target : MockClient) (i : Nat) : MockClient × Option String :=
  importBatchTrackingGo batchSize data (data.length - i) target i

/-- The per-table loop of `executeFullMigration`, threading both clients
and the row total (which the Go code accumulates into the result even
when a later table aborts the run). -/
def executeFullMigrationLoop (cfg : MigrationConfig) (vdt : List Rec → Option String) :
    List String → MockClient → MockClient → Int →
    MockClient × MockClient × Int × Option String
  | [], source, target, rows => (source, target, rows, none)
  | t :: rest, source, target, rows =>
    let fetched :=
      if cfg.concurrent ∧ cfg.tables.length > 1 then
        source.fetchAllDataConcurrently [t] 1
      else
        source.fetchAllData [t]
    match fetched.2 with
    | .error e =>
      (fetched.1, target, rows, some ("failed to fetch data from table " ++ t ++ ", " ++ e))
    | .ok tableData =>
      match (if cfg.validateData ∧ tableData.length > 0 then vdt tableData else none) with
      | some e =>
        (fetched.1, target, rows,
         some ("data type validation failed for table " ++ t ++ ", " ++ e))
      | none =>
        let imported :=
          if cfg.concurrent ∧ (tableData.length : Int) > cfg.batchSize then
            importDataWithBatchTracking cfg.batchSize tableData target 0
          else
            target.importData tableData
        match imported.2 with
        | some e =>
          (fetched.1, imported.1, rows,
           some ("failed to import data for table " ++ t ++ ", " ++ e))
        | none =>
          executeFullMigrationLoop cfg vdt rest fetched.1 imported.1
            (rows + (tableData.length : Int))

/-- Steps 3 and 4 of `ExecuteMigration`: post-migration validation (the
Go `PostMigationValidation` error return is `nil` on every path, so its
error branch is dead) and result finalization. -/
def postAndFinalize (cfg : MigrationConfig) (result1 : MigrationResult)
    (source target : MockClient) : EngineOutcome :=
  if cfg.validateData then
    let post := postMigationValidationLoop 100 result1.preValidation target cfg.tables
    let result2 := { result1 with postValidation := post.2 }
    let summary := generateValidationSummary post.2
    if summary.invalidTables > 0 then
      { result := { result2 with success := false },
        err := some ("migration validation failed for "
          ++ toString summary.invalidTables ++ " tables"),
        source := source, target := post.1 }
    else
      { result := { result2 with
          success := true,
          totalTablesProcessed := cfg.tables.length },
        err := none, source := source, target := post.1 }
  else
    { result := { result1 with
        success := true,
        totalTablesProcessed := cfg.tables.length },
      err := none, source := source, target := target }

/-- Step 2 of `ExecuteMigration`: dispatch on the mode string.
Incremental and scheduled migration are placeholders that return a
"not implemented" error; an unknown mode returns an "unsupported" error
without appending to the result's error list (faithful to the source,
which appends only the migration error). -/
def executeModePhase (cfg : MigrationConfig) (vdt : List Rec → Option String)
    (result0 : MigrationResult) (source target : MockClient) : EngineOutcome :=
  if cfg.mode = "full" then
    let run := executeFullMigrationLoop cfg vdt cfg.tables source target 0
    let result1 := { result0 with totalRowsMigrated := run.2.2.1 }
    match run.2.2.2 with
    | some e =>
      { result := { result1 with errors := result1.errors ++ [e] },
        err := some e, source := run.1, target := run.2.1 }
    | none => postAndFinalize cfg result1 run.1 run.2.1
  else if cfg.mode = "incremental" then
    { result := { result0 with
        errors := result0.errors ++ ["incremental migration not implemented"] },
      err := some "incremental migration not implemented",
      source := source, target := target }
  else if cfg.mode = "scheduled" then
    { result := { result0 with
        errors := result0.errors ++ ["scheduled migration not implemented"] },
      err := some "scheduled migration not implemented",
      source := source, target := target }
  else
    { result := result0, err := some ("unsupported migration mode " ++ cfg.mode),
      source := source, target := target }

/-- `ExecuteMigration`.  Step 1 is pre-migration validation (skippable);
its Go error return is `nil` on every path, so the engine's first error
branch is dead; an invalid table aborts before any write, without
appending to the result's error list (faithful to the source). -/
def ExecuteMigration (cfg : MigrationConfig) (vdt : List Rec → Option String)
    (source target : MockClient) : EngineOutcome :=
  if cfg.validateData then
    let pre := PreMigrationValidation 100 source cfg.tables
    let result0 := { emptyResult with preValidation := pre.2.1 }
    let summary := generateValidationSummary pre.2.1
    if summary.invalidTables > 0 then
      { result := result0,
        err := some ("pre-migration validation failed for "
          ++ toString summary.invalidTables ++ " tables"),
        source := pre.1, target := target }
    else
      executeModePhase cfg vdt result0 pre.1 target
  else
    executeModePhase cfg vdt emptyResult source target

/-! ## Rollback / snapshot manager (the `migration` package's rollback
source file)

The on-disk snapshot directory is modelled as an association list from
snapshot ID (the file name without `.json`) to the parsed
`MigrationSnapshot`; `os.WriteFile` replaces the binding, `os.Remove`
deletes it.  Wall-clock time is an explicit `now : Int` parameter
(`time.Time` values compare by `<`). -/

structure TableSnapshot where
  tableName : String
  rowCount : Int
  existedBefore : Bool
  deriving DecidableEq, Repr

structure MigrationSnapshot where
  id : String
  timestamp : Int
  sourceDB : String
  targetDB : String
  tables : List String
  preMigrationState : List (String × TableSnapshot)
  migratedData : List (String × List Rec)
  status : String
  deriving DecidableEq, Repr

abbrev SnapshotStore := List (String × MigrationSnapshot)

/-- `LoadSnapshot`: read and parse `<id>.json`. -/
def loadSnapshot (store : SnapshotStore) (id : String) : Option MigrationSnapshot :=
  match store.find? (fun p => p.1 = id) with
  | some p => some p.2
  | none => none

/-- `saveSnapshot`: (over)write `<id>.json`. -/
def saveSnapshot : SnapshotStore → MigrationSnapshot → SnapshotStore
  | [], snap => [(snap.id, snap)]
  | (k, v) :: rest, snap =>
    if k = snap.id then (k, snap) :: rest else (k, v) :: saveSnapshot rest snap

/-- `captureTableState`: a target fetch error is swallowed — the table is
recorded as not having existed before, with row count 0, and the Go
error return is `nil` on BOTH branches (last component). -/
def captureTableState (target : MockClient) (tableName : String) :
    MockClient × TableSnapshot × Option String :=
  let fr := target.fetchAllData [tableName]
  match fr.2 with
  | .error _ =>
    (fr.1, { tableName := tableName, rowCount := 0, existedBefore := false }, none)
  | .ok existingData =>
    (fr.1, { tableName := tableName, rowCount := (existingData.length : Int),
             existedBefore := true }, none)

/-- The capture loop of `CreateSnapshot`.  On a `captureTableState`
error (which cannot happen) the code substitutes an empty snapshot and
continues. -/
def captureAllTables (target : MockClient) :
    List String → MockClient × List (String × TableSnapshot)
  | [] => (target, [])
  | t :: rest =>
    let cap := captureTableState target t
    let entry :=
      match cap.2.2 with
      | some _ => (t, ({ tableName := t, rowCount := 0, existedBefore := false } : TableSnapshot))
      | none => (t, cap.2.1)
    let r := captureAllTables cap.1 rest
    (r.1, entry :: r.2)

/-- `CreateSnapshot`: capture every configured table's pre-state, build
the snapshot with status `"in_progress"` and persist it.  (File-write
failure is outside the model; the Go error return is otherwise `nil`.) -/
def CreateSnapshot (cfg : MigrationConfig) (now : Int) (target : MockClient)
    (store : SnapshotStore) :
    MockClient × SnapshotStore × MigrationSnapshot × Option String :=
  let snapshotID := "migration_" ++ cfg.sourceDb ++ "_to_" ++ cfg.targetDb ++ "_" ++ toString now
  let cap := captureAllTables target cfg.tables
  let snapshot : MigrationSnapshot :=
    { id := snapshotID, timestamp := now, sourceDB := cfg.sourceDb,
      targetDB := cfg.targetDb, tables := cfg.tables,
      preMigrationState := cap.2, migratedData := [], status := "in_progress" }
  (cap.1, saveSnapshot store snapshot, snapshot, none)

/-- `MarkSnapshotCompleted`. -/
def MarkSnapshotCompleted (store : SnapshotStore) (id : String) :
    SnapshotStore × Option String :=
  match loadSnapshot store id with
  | none => (store, some ("failed to read snapshot file, " ++ id))
  | some s => (saveSnapshot store { s with status := "completed" }, none)

/-- The table-rollback work `rollbackTable` decides on: clear the whole
table when it did not exist before migration (`dropTable`→`clearTable`),
otherwise remove only the migrated rows (`removeMigratedData`).  Both
paths only log in the source; the embedding records the decided action. -/
inductive RollbackAction where
  | clearAll (table : String)
  | removeMigrated (table : String) (rows : List Rec)
  deriving DecidableEq, Repr

def rollbackTable (tableName : String) (preState : TableSnapshot)
    (migratedData : List Rec) : RollbackAction :=
  if !preState.existedBefore then .clearAll tableName
  else .removeMigrated tableName migratedData

/-- Go map read `snapshot.MigratedData[tableName]` (nil slice when
missing). -/
def lookupMigrated (m : List (String × List Rec)) (t : String) : List Rec :=
  match m.find? (fun p => p.1 = t) with
  | some p => p.2
  | none => []

/-- `RollBackMigration`: load, reject if already rolled back, roll back
each table (per-table errors are logged and swallowed in the source),
then persist the status `"rolled_back"`.  Returns the table-rollback
actions performed. -/
def RollBackMigration (store : SnapshotStore) (snapshotID : String) :
    SnapshotStore × List RollbackAction × Option String :=
  match loadSnapshot store snapshotID with
  | none => (store, [], some ("failed to load the snapshot, " ++ snapshotID))
  | some snapshot =>
    if snapshot.status = "rolled_back" then
      (store, [], some ("migration " ++ snapshotID ++ " has already been rolled back"))
    else
      let actions := snapshot.preMigrationState.map
        (fun p => rollbackTable p.1 p.2 (lookupMigrated snapshot.migratedData p.1))
      (saveSnapshot store { snapshot with status := "rolled_back" }, actions, none)

/-- `ListSnapshots`: every parseable snapshot file in the directory. -/
def ListSnapshots (store : SnapshotStore) : List MigrationSnapshot :=
  store.map (fun p => p.2)

/-- `CleanupOldSnapshots`: remove files strictly older than
`now - maxDuration` whose status is `"completed"` or — exactly as the
source spells it — `"rolled-back"` (hyphen), although every writer in
the same file stores `"rolled_back"` (underscore). -/
def CleanupOldSnapshots (now maxDuration : Int) (store : SnapshotStore) : SnapshotStore :=
  store.filter (fun p =>
    ¬ (p.2.timestamp < now - maxDuration ∧
       (p.2.status = "completed" ∨ p.2.status = "rolled-back")))

/-! ## Concrete fixtures

The end-to-end scenario of the spec (`users` with 3 records, `orders`
with 4) and small snapshot stores used to instantiate the theorems. -/

def usersRows : List Rec :=
  [[("id", Value.vInt 1), ("name", Value.vStr "alice")],
   [("id", Value.vInt 2), ("name", Value.vStr "bob")],
   [("id", Value.vInt 3), ("name", Value.vStr "carol")]]

def ordersRows : List Rec :=
  [[("id", Value.vInt 1), ("amount", Value.vInt 10)],
   [("id", Value.vInt 2), ("amount", Value.vInt 20)],
   [("id", Value.vInt 3), ("amount", Value.vInt 30)],
   [("id", Value.vInt 4), ("amount", Value.vInt 40)]]

/-- Source client holding the two scenario tables. -/
def scenarioSource : MockClient :=
  { mockData := [("users", usersRows), ("orders", ordersRows)],
    failOnFetch := "", failOnImport := false, importedData := [],
    fetchCalled := 0, importCalled := 0 }

/-- Empty target client. -/
def scenarioTarget : MockClient :=
  { mockData := [], failOnFetch := "", failOnImport := false, importedData := [],
    fetchCalled := 0, importCalled := 0 }

/-- The spec's end-to-end configuration: full mode, concurrent, 2
workers, batch size 2. -/
def scenarioConfig : MigrationConfig :=
  { mode := "full", sourceDb := "mysql", targetDb := "postgresql",
    tables := ["users", "orders"], workers := 2, batchSize := 2,
    concurrent := true, validateData := false, createBackup := false,
    incrementalColumn := "" }

/-- Number of imported rows carrying a given `_source_table` tag. -/
def countTagged (t : String) (rows : List Rec) : Nat :=
  (rows.filter (fun r => getField r "_source_table" = some (Value.vStr t))).length

/-- An incremental-mode configuration with validation enabled. -/
def incrValidateConfig : MigrationConfig :=
  { scenarioConfig with mode := "incremental", validateData := true }

/-- A scheduled-mode configuration without validation. -/
def schedNoValidateConfig : MigrationConfig :=
  { scenarioConfig with mode := "scheduled", validateData := false }

/-- Old snapshot already rolled back (status as `RollBackMigration`
writes it). -/
def snapRolledBack : MigrationSnapshot :=
  { id := "s1", timestamp := 0, sourceDB := "mysql", targetDB := "postgresql",
    tables := ["users"], preMigrationState := [], migratedData := [],
    status := "rolled_back" }

/-- Old completed snapshot. -/
def snapCompletedOld : MigrationSnapshot :=
  { snapRolledBack with id := "s2", status := "completed" }

/-- Old in-progress snapshot. -/
def snapInProgress : MigrationSnapshot :=
  { snapRolledBack with id := "s3", status := "in_progress" }

/-- Old failed snapshot. -/
def snapFailed : MigrationSnapshot :=
  { snapRolledBack with id := "s4", status := "failed" }

/-- Young completed snapshot (timestamp after the cutoff used in the
evaluation). -/
def snapCompletedYoung : MigrationSnapshot :=
  { snapRolledBack with id := "s5", status := "completed", timestamp := 95 }

/-- Snapshot store holding one snapshot of every status and age class. -/
def cleanupStore : SnapshotStore :=
  [("s1", snapRolledBack), ("s2", snapCompletedOld), ("s3", snapInProgress),
   ("s4", snapFailed), ("s5", snapCompletedYoung)]

/-- A fetch environment where only `orders` fails. -/
def fetchOrdersFails (t : String) : Except String (List Rec) :=
  if t = "orders" then .error "connection reset" else .ok usersRows

/-- A fetch environment where every table succeeds. -/
def fetchAlwaysOk (t : String) : Except String (List Rec) :=
  if t = "users" then .ok usersRows else .ok ordersRows

/-- A target client whose fetch of `users` fails. -/
def failingTarget : MockClient := { scenarioTarget with failOnFetch := "users" }

/-- A source client whose fetch of `users` fails. -/
def failingSource : MockClient := { scenarioSource with failOnFetch := "users" }

theorem batchRun_nil (importFn : List Rec → Option String) (b : Nat) :
    batchRun importFn b [] = ([], none) := by
  simp [batchRun]

theorem batchRun_cons (importFn : List Rec → Option String) (b : Nat) (l : List Rec)
    (hl : l ≠ []) :
    batchRun importFn b l =
      (match importFn (l.take (b + 1)) with
       | some msg => ([l.take (b + 1)], some msg)
       | none =>
         (l.take (b + 1) :: (batchRun importFn b (l.drop (b + 1))).1,
          (batchRun importFn b (l.drop (b + 1))).2)) := by
  cases l with
  | nil => exact absurd rfl hl
  | cons x xs =>
    rw [batchRun]
    cases himp : importFn ((x :: xs).take (b + 1)) <;>
      simp [himp, List.drop_succ_cons]

/-- One unfolding of the fueled loop when the guard holds and the batch
size is the positive integer `b + 1`. -/
theorem processInBatchesAux_step (importFn : List Rec → Option String) (b : Nat)
    (data : List Rec) (fuel i : Nat) (trace : List (List Rec))
    (hi : i < data.length) :
    processInBatchesAux importFn ((b : Int) + 1) data (fuel + 1) i trace =
      (match importFn ((data.drop i).take (b + 1)) with
       | some msg => .err (trace ++ [(data.drop i).take (b + 1)]) msg
       | none => processInBatchesAux importFn ((b : Int) + 1) data fuel
           (i + (b + 1)) (trace ++ [(data.drop i).take (b + 1)])) := by
  rw [processInBatchesAux]
  rw [if_pos hi]
  by_cases hS : (i : Int) + ((b : Int) + 1) > (data.length : Int)
  · have hlen : data.length - i ≤ b + 1 := by
      have : (data.length : Int) < (i : Int) + ((b : Int) + 1) := hS
      omega
    have hstop : ¬ ((data.length : Int) < (i : Int)) := by
      have := hi; omega
    have hbatch : (data.drop i).take ((data.length : Int) - (i : Int)).toNat
        = (data.drop i).take (b + 1) := by
      have h1 : ((data.length : Int) - (i : Int)).toNat = data.length - i := by omega
      rw [h1]
      have h2 : (data.drop i).take (data.length - i)
          = (data.drop i).take ((data.drop i).length) := by
        rw [List.length_drop]
      rw [h2, List.take_length]
      exact (List.take_of_length_le (by rw [List.length_drop]; exact hlen)).symm
    simp only [if_pos hS, if_neg hstop, hbatch]
    have hidx : (((i : Int) + ((b : Int) + 1))).toNat = i + (b + 1) := by omega
    cases himp : importFn ((data.drop i).take (b + 1)) <;> simp [himp, hidx]
  · have hstop : ¬ ((i : Int) + ((b : Int) + 1) < (i : Int)) := by omega
    have hbatch : (data.drop i).take (((i : Int) + ((b : Int) + 1)) - (i : Int)).toNat
        = (data.drop i).take (b + 1) := by
      have h1 : (((i : Int) + ((b : Int) + 1)) - (i : Int)).toNat = b + 1 := by omega
      rw [h1]
    simp only [if_neg hS, if_neg hstop, hbatch]
    have hidx : (((i : Int) + ((b : Int) + 1))).toNat = i + (b + 1) := by omega
    cases himp : importFn ((data.drop i).take (b + 1)) <;> simp [himp, hidx]

/-- With positive batch size `b + 1` and enough fuel, the loop computes
exactly what the structural companion `batchRun` computes on the
remaining suffix, with the accumulated trace prefixed. -/
theorem processInBatchesAux_eq_batchRun (importFn : List Rec → Option String)
    (b : Nat) (data : List Rec) :
    ∀ (fuel j : Nat) (trace : List (List Rec)), data.length - j < fuel →
      processInBatchesAux importFn ((b : Int) + 1) data fuel j trace =
        (match batchRun importFn b (data.drop j) with
         | (tr, none) => PBResult.ok (trace ++ tr)
         | (tr, some msg) => PBResult.err (trace ++ tr) msg) := by
  intro fuel
  induction fuel with
  | zero => intro j trace h; omega
  | succ fuel ih =>
    intro j trace h
    by_cases hj : j < data.length
    · have hne : data.drop j ≠ [] := by
        intro hnil
        have hlen := List.length_drop j data
        rw [hnil] at hlen
        simp at hlen
        omega
      rw [processInBatchesAux_step importFn b data fuel j trace hj,
        batchRun_cons importFn b _ hne]
      cases himp : importFn ((data.drop j).take (b + 1)) with
      | some msg => simp
      | none =>
        have hdrop : (data.drop j).drop (b + 1) = data.drop (j + (b + 1)) := by
          rw [List.drop_drop]
        rw [ih (j + (b + 1)) (trace ++ [(data.drop j).take (b + 1)]) (by omega)]
        rw [hdrop]
        cases hrec : batchRun importFn b (data.drop (j + (b + 1))) with
        | mk tr res =>
          cases res <;> simp
    · have hdone : processInBatchesAux importFn ((b : Int) + 1) data (fuel + 1) j trace
          = .ok trace := by
        rw [processInBatchesAux]
        rw [if_neg hj]
      have hnil : data.drop j = [] := List.drop_eq_nil_of_le (by omega)
      rw [hdone, hnil, batchRun_nil]
      simp

theorem numChunks_zero (b : Nat) : numChunks (b + 1) 0 = 0 := by
  unfold numChunks
  have h : 0 + (b + 1) - 1 = b := by omega
  rw [h]
  exact Nat.div_eq_of_lt (by omega)

theorem numChunks_succ (b L : Nat) (hL : 1 ≤ L) :
    numChunks (b + 1) L = numChunks (b + 1) (L - (b + 1)) + 1 := by
  unfold numChunks
  rcases le_or_lt L (b + 1) with hle | hlt
  · have e1 : L + (b + 1) - 1 = (b + 1) * 1 + (L - 1) := by omega
    have e2 : L - (b + 1) + (b + 1) - 1 = b := by omega
    rw [e1, Nat.mul_add_div (by omega), Nat.div_eq_of_lt (show L - 1 < b + 1 by omega),
      e2, Nat.div_eq_of_lt (by omega)]
  · have e1 : L + (b + 1) - 1 = (L - (b + 1) + (b + 1) - 1) + (b + 1) := by omega
    rw [e1, Nat.add_div_right _ (by omega)]

theorem chunkAt_zero (B : Nat) (data : List Rec) : chunkAt B data 0 = data.take B := by
  simp [chunkAt]

theorem chunkAt_drop (b : Nat) (data : List Rec) (k : Nat) :
    chunkAt (b + 1) (data.drop (b + 1)) k = chunkAt (b + 1) data (k + 1) := by
  unfold chunkAt
  rw [List.drop_drop]
  congr 2
  ring

/-- If the import function accepts every chunk, `batchRun` runs all
`ceil(L/B)` chunks, in order, and returns no error. -/
theorem batchRun_all_ok (importFn : List Rec → Option String) (b : Nat) :
    ∀ (n : Nat) (data : List Rec), data.length ≤ n →
      (∀ k, k < numChunks (b + 1) data.length →
        importFn (chunkAt (b + 1) data k) = none) →
      batchRun importFn b data =
        ((List.range (numChunks (b + 1) data.length)).map (chunkAt (b + 1) data),
         none) := by
  intro n
  induction n with
  | zero =>
    intro data hlen hok
    have : data = [] := List.eq_nil_of_length_eq_zero (by omega)
    subst this
    simp [batchRun_nil, numChunks_zero]
  | succ n ihn =>
    intro data hlen hok
    cases hdata : data with
    | nil => simp [batchRun_nil, numChunks_zero]
    | cons x xs =>
      subst hdata
      have hL : 1 ≤ (x :: xs).length := by simp
      rw [numChunks_succ b _ hL] at hok ⊢
      have h0 : importFn ((x :: xs).take (b + 1)) = none := by
        have := hok 0 (by omega)
        rwa [chunkAt_zero] at this
      rw [batchRun_cons importFn b _ (by simp), h0]
      have hlen' : ((x :: xs).drop (b + 1)).length ≤ n := by
        rw [List.length_drop]
        simp at hlen ⊢
        omega
      have hok' : ∀ k, k < numChunks (b + 1) ((x :: xs).drop (b + 1)).length →
          importFn (chunkAt (b + 1) ((x :: xs).drop (b + 1)) k) = none := by
        intro k hk
        rw [List.length_drop] at hk
        rw [chunkAt_drop]
        exact hok (k + 1) (by omega)
      rw [ihn _ hlen' hok']
      rw [List.length_drop, List.range_succ_eq_map]
      have hfun : chunkAt (b + 1) ((x :: xs).drop (b + 1))
          = fun k => chunkAt (b + 1) (x :: xs) (k + 1) :=
        funext (fun k => chunkAt_drop b (x :: xs) k)
      rw [hfun]
      simp [Function.comp, chunkAt_zero]

/-- If the import function accepts chunks `0..k-1` and rejects chunk `k`
(with `k` in range), `batchRun` stops there: the trace is exactly chunks
`0..k` and the error is returned. -/
theorem batchRun_first_err (importFn : List Rec → Option String) (b : Nat) :
    ∀ (n : Nat) (data : List Rec), data.length ≤ n →
      ∀ (k : Nat) (msg : String), k < numChunks (b + 1) data.length →
      (∀ j, j < k → importFn (chunkAt (b + 1) data j) = none) →
      importFn (chunkAt (b + 1) data k) = some msg →
      batchRun importFn b data =
        ((List.range (k + 1)).map (chunkAt (b + 1) data), some msg) := by
  intro n
  induction n with
  | zero =>
    intro data hlen k msg hk hbefore hfail
    have : data = [] := List.length_eq_zero.mp (by omega)
    subst this
    rw [List.length_nil, numChunks_zero] at hk
    omega
  | succ n ihn =>
    intro data hlen k msg hk hbefore hfail
    cases hdata : data with
    | nil =>
      subst hdata
      rw [List.length_nil, numChunks_zero] at hk
      omega
    | cons x xs =>
      subst hdata
      have hL : 1 ≤ (x :: xs).length := by simp
      rw [batchRun_cons importFn b _ (by simp)]
      cases k with
      | zero =>
        rw [chunkAt_zero] at hfail
        rw [hfail]
        simp [List.range_succ, chunkAt_zero]
      | succ k =>
        have h0 : importFn ((x :: xs).take (b + 1)) = none := by
          have := hbefore 0 (by omega)
          rwa [chunkAt_zero] at this
        rw [h0]
        have hlen' : ((x :: xs).drop (b + 1)).length ≤ n := by
          rw [List.length_drop]
          simp at hlen ⊢
          omega
        have hk' : k < numChunks (b + 1) ((x :: xs).drop (b + 1)).length := by
          rw [List.length_drop]
          rw [numChunks_succ b _ hL] at hk
          omega
        have hbefore' : ∀ j, j < k →
            importFn (chunkAt (b + 1) ((x :: xs).drop (b + 1)) j) = none := by
          intro j hj
          rw [chunkAt_drop]
          exact hbefore (j + 1) (by omega)
        have hfail' : importFn (chunkAt (b + 1) ((x :: xs).drop (b + 1)) k) = some msg := by
          rw [chunkAt_drop]
          exact hfail
        rw [ihn _ hlen' k msg hk' hbefore' hfail']
        have hfun : chunkAt (b + 1) ((x :: xs).drop (b + 1))
            = fun j => chunkAt (b + 1) (x :: xs) (j + 1) :=
          funext (fun j => chunkAt_drop b (x :: xs) j)
        rw [hfun]
        simp only [List.range_succ_eq_map, List.map_cons, List.map_map]
        simp [Function.comp, chunkAt_zero]

theorem chunkAt_length (b : Nat) (data : List Rec) (k : Nat) :
    (chunkAt (b + 1) data k).length = min (b + 1) (data.length - k * (b + 1)) := by
  simp [chunkAt, List.length_take, List.length_drop]

theorem chunkAt_length_le (B : Nat) (data : List Rec) (k : Nat) :
    (chunkAt B data k).length ≤ B := by
  unfold chunkAt
  exact List.length_take_le _ _

/-- The last of the `ceil(L/B)` chunks has `L mod B` records, or `B`
when `B` divides `L`. -/
theorem chunkAt_last_length (b : Nat) (data : List Rec) (hL : 1 ≤ data.length) :
    (chunkAt (b + 1) data (numChunks (b + 1) data.length - 1)).length
      = if data.length % (b + 1) = 0 then b + 1 else data.length % (b + 1) := by
  obtain ⟨q, r, hqr, hrlt⟩ : ∃ q r, data.length = (b + 1) * q + (r + 1) ∧ r < b + 1 := by
    refine ⟨(data.length - 1) / (b + 1), (data.length - 1) % (b + 1), ?_, ?_⟩
    · have := Nat.div_add_mod (data.length - 1) (b + 1)
      omega
    · exact Nat.mod_lt _ (by omega)
  have hn : numChunks (b + 1) data.length = q + 1 := by
    unfold numChunks
    have e1 : data.length + (b + 1) - 1 = (b + 1) * q + r + (b + 1) := by omega
    have e2 : (b + 1) * q + r + (b + 1) = (b + 1) * (q + 1) + r := by ring
    rw [e1, e2, Nat.mul_add_div (by omega), Nat.div_eq_of_lt hrlt]
  have hmod : data.length % (b + 1) = (r + 1) % (b + 1) := by
    rw [hqr, Nat.mul_add_mod]
  have hlen := chunkAt_length b data q
  rw [hn, Nat.add_sub_cancel, hlen]
  have hsub : data.length - q * (b + 1) = r + 1 := by
    have hcomm : q * (b + 1) = (b + 1) * q := by ring
    omega
  rw [hsub, hmod]
  by_cases hc : r + 1 = b + 1
  · rw [hc, Nat.mod_self, if_pos rfl, Nat.min_self]
  · rw [Nat.mod_eq_of_lt (by omega), if_neg (by omega)]
    exact Nat.min_eq_right (by omega)

/-- With batch size 0, a non-empty list and an import function that
never errors, every iteration re-runs at the same index on an empty
slice: no amount of fuel completes the loop. -/
theorem processInBatchesAux_zero_loops (importFn : List Rec → Option String)
    (data : List Rec) (himp : ∀ c, importFn c = none) :
    ∀ (fuel i : Nat) (trace : List (List Rec)), i < data.length →
      processInBatchesAux importFn 0 data fuel i trace = PBResult.outOfFuel := by
  intro fuel
  induction fuel with
  | zero => intro i trace hi; rfl
  | succ fuel ih =>
    intro i trace hi
    rw [processInBatchesAux]
    rw [if_pos hi]
    have h1 : ¬ ((i : Int) + 0 > (data.length : Int)) := by omega
    rw [if_neg h1]
    have h2 : ¬ ((i : Int) + 0 < (i : Int)) := by omega
    rw [if_neg h2]
    have h3 : (((i : Int) + 0) - (i : Int)).toNat = 0 := by omega
    rw [h3, List.take_zero]
    simp only [himp]
    have h4 : ((i : Int) + 0).toNat = i := by omega
    rw [h4]
    exact ih i (trace ++ [[]]) hi

/-- A worker's result always carries the submitted table's name. -/
theorem runTableJob_tableName (fetch : String → Except String (List Rec))
    (t : String) : (runTableJob fetch t).tableName = t := by
  unfold runTableJob
  cases fetch t <;> rfl

/-- The adjusted Go sample size (`if len < s then len else s`) takes the
same prefix as `take s`. -/
theorem take_adjusted (l : List Rec) (s : Nat) :
    l.take (if l.length < s then l.length else s) = l.take s := by
  by_cases h : l.length < s
  · rw [if_pos h, List.take_length l, List.take_of_length_le (by omega)]
  · rw [if_neg h]

/-- Writing a snapshot file and reading it back by its ID yields the
written snapshot. -/
theorem loadSnapshot_saveSnapshot (store : SnapshotStore) (s : MigrationSnapshot) :
    loadSnapshot (saveSnapshot store s) s.id = some s := by
  induction store with
  | nil => simp [saveSnapshot, loadSnapshot, List.find?]
  | cons kv rest ih =>
    obtain ⟨k, v⟩ := kv
    rw [saveSnapshot]
    by_cases hk : k = s.id
    · rw [if_pos hk]
      simp [loadSnapshot, List.find?, hk]
    · rw [if_neg hk]
      unfold loadSnapshot at ih ⊢
      rw [List.find?_cons_of_neg _ (by simp [hk])]
      exact ih

/-- Closed form of the collector fold of `ProcessTablesWithWorkerPool`:
rows of successful tables accumulate in arrival order even past failed
tables, and one error string accumulates per failed table. -/
theorem collect_foldl_spec (fetch : String → Except String (List Rec)) :
    ∀ (arrival : List String) (acc : List Rec × List String),
      (arrival.map (runTableJob fetch)).foldl collectStep acc =
        (acc.1 ++ arrival.flatMap (fun t =>
            match fetch t with
            | .ok d => tagRows t d
            | .error _ => []),
         acc.2 ++ arrival.flatMap (fun t =>
            match fetch t with
            | .error e => ["error processing table " ++ t ++ ": " ++ e]
            | .ok _ => [])) := by
  intro arrival
  induction arrival with
  | nil => intro acc; simp
  | cons t rest ih =>
    intro acc
    rw [List.map_cons, List.foldl_cons]
    cases hf : fetch t with
    | ok d =>
      have hstep : collectStep acc (runTableJob fetch t) = (acc.1 ++ tagRows t d, acc.2) := by
        unfold collectStep runTableJob
        rw [hf]
      rw [hstep, ih]
      simp [hf, List.flatMap_cons, List.append_assoc]
    | error e =>
      have hstep : collectStep acc (runTableJob fetch t)
          = (acc.1, acc.2 ++ ["error processing table " ++ t ++ ": " ++ e]) := by
        unfold collectStep runTableJob
        rw [hf]
      rw [hstep, ih]
      simp [hf, List.flatMap_cons, List.append_assoc]

/-- The mock client's fetch of a single table, in closed form. -/
theorem fetchAllData_single (m : MockClient) (t : String) :
    m.fetchAllData [t] =
      ({ m with fetchCalled := m.fetchCalled + 1 },
       if m.failOnFetch ≠ "" ∧ t = m.failOnFetch then
         Except.error ("mock fetch error for tables " ++ m.failOnFetch)
       else Except.ok (sourceTableRows m t)) := by
  unfold MockClient.fetchAllData
  by_cases h1 : m.failOnFetch = ""
  · rw [if_neg (fun h => h.1 h1), if_neg (fun h => h.1 h1)]
    simp [sourceTableRows]
  · by_cases h2 : t = m.failOnFetch
    · rw [if_pos ⟨h1, by simp [h2]⟩, if_pos ⟨h1, h2⟩]
    · have hA : ¬ (m.failOnFetch ≠ "" ∧ ([t].contains m.failOnFetch = true)) := by
        intro h
        have : m.failOnFetch = t := by simpa using h.2
        exact h2 this.symm
      rw [if_neg hA, if_neg (fun h => h2 h.2)]
      simp [sourceTableRows]

/-- The pre-validation loop computes, in table order, the closed-form
per-table outcome of the original client: threading only advances the
fetch counter, which no outcome depends on. -/
theorem preMigrationValidationLoop_spec (sampleSize : Nat) :
    ∀ (tables : List String) (source : MockClient),
      (preMigrationValidationLoop sampleSize source tables).2
        = tables.map (preValidationSpec source sampleSize) := by
  intro tables
  induction tables with
  | nil => intro source; rfl
  | cons t rest ih =>
    intro source
    have hspec : preValidationSpec { source with fetchCalled := source.fetchCalled + 1 }
        sampleSize = preValidationSpec source sampleSize := rfl
    rw [preMigrationValidationLoop, fetchAllData_single]
    by_cases hf : source.failOnFetch ≠ "" ∧ t = source.failOnFetch
    · rw [if_pos hf]
      dsimp only
      rw [ih, hspec, List.map_cons]
      unfold preValidationSpec
      rw [if_pos hf]
    · rw [if_neg hf]
      dsimp only
      rw [ih, hspec, List.map_cons]
      unfold preValidationSpec
      rw [if_neg hf, take_adjusted]

/-- C4: for every record list of length `L ≥ 1` and batch size
`B = b + 1 ≥ 1` (with enough fuel), `ProcessInBatches` invokes
the import function exactly `ceil(L/B)` times, on the contiguous,
non-overlapping, in-order chunks `data[k*B : min((k+1)*B, L)]`
(`chunkAt`), each of at most `B` records and the last of `L mod B`
records (or `B` when `B` divides `L`); and it stops at the first chunk
whose import errors, returning that error and invoking the import
function on no later chunk. -/
theorem claim_C4_batch_chunking (importFn : List Rec → Option String)
    (b : Nat) (data : List Rec) (fuel : Nat)
    (hL : 1 ≤ data.length) (hfuel : data.length < fuel) :
    ((∀ k, k < numChunks (b + 1) data.length →
        importFn (chunkAt (b + 1) data k) = none) →
      ProcessInBatches importFn ((b : Int) + 1) data fuel
        = PBResult.ok ((List.range (numChunks (b + 1) data.length)).map
            (chunkAt (b + 1) data)))
    ∧ (∀ k msg, k < numChunks (b + 1) data.length →
        (∀ j, j < k → importFn (chunkAt (b + 1) data j) = none) →
        importFn (chunkAt (b + 1) data k) = some msg →
        ProcessInBatches importFn ((b : Int) + 1) data fuel
          = PBResult.err ((List.range (k + 1)).map (chunkAt (b + 1) data)) msg)
    ∧ (∀ k, (chunkAt (b + 1) data k).length ≤ b + 1)
    ∧ (chunkAt (b + 1) data (numChunks (b + 1) data.length - 1)).length
        = (if data.length % (b + 1) = 0 then b + 1 else data.length % (b + 1)) := by
  have hbase : ∀ (tr : List (List Rec)) (res : Option String),
      batchRun importFn b data = (tr, res) →
      ProcessInBatches importFn ((b : Int) + 1) data fuel
        = (match res with
           | none => PBResult.ok tr
           | some msg => PBResult.err tr msg) := by
    intro tr res hbr
    unfold ProcessInBatches
    rw [if_neg (by omega)]
    rw [processInBatchesAux_eq_batchRun importFn b data fuel 0 [] (by omega)]
    rw [List.drop_zero, hbr]
    cases res <;> simp
  refine ⟨?_, ?_, fun k => chunkAt_length_le (b + 1) data k,
    chunkAt_last_length b data hL⟩
  · intro hok
    have h := hbase _ _ (batchRun_all_ok importFn b data.length data le_rfl hok)
    simpa using h
  · intro k msg hk hbefore hfail
    have h := hbase _ _
      (batchRun_first_err importFn b data.length data le_rfl k msg hk hbefore hfail)
    simpa using h

/-- C4 witness: the 3-record scenario table with batch size 2 and an
always-succeeding import function yields the two chunks in order. -/
theorem claim_C4_batch_chunking_witness :
    ProcessInBatches (fun _ => none) (((1 : Nat) : Int) + 1) usersRows 4
      = PBResult.ok ((List.range (numChunks 2 usersRows.length)).map
          (chunkAt 2 usersRows)) :=
  (claim_C4_batch_chunking (fun _ => none) 1 usersRows 4 (by decide) (by decide)).1
    (fun _ _ => rfl)

/-- C9 counterexample: the claim says the loop never terminates for any
`batchSize ≤ 0` on a non-empty list; with `batchSize = -1` it in fact
stops immediately — fuel 1 already yields the definite slice-bounds
panic outcome, not fuel exhaustion. -/
theorem claim_C9_counterexample :
    ProcessInBatches (fun _ => none) (-1) usersRows 1 = PBResult.panicked []
    ∧ ProcessInBatches (fun _ => none) (-1) usersRows 100 = PBResult.panicked []
    ∧ PBResult.panicked [] ≠ PBResult.outOfFuel := by
  exact ⟨by decide, by decide, by decide⟩

/-- C9 (amended): `ProcessInBatches` terminates for every record list
when `batchSize ≥ 1` (any fuel beyond the list length suffices); on an
empty list it returns nil without invoking the import function for any
`batchSize`; on a non-empty list with `batchSize = 0` and an import
function that never errors the loop never terminates (every fuel is
exhausted); and with `batchSize < 0` it stops at once with the Go
slice-bounds panic on the first chunk. -/
theorem claim_C9_amended (importFn : List Rec → Option String) (batchSize : Int)
    (data : List Rec) (fuel : Nat) :
    (∀ b : Nat, batchSize = (b : Int) + 1 → data.length < fuel →
      ProcessInBatches importFn batchSize data fuel ≠ PBResult.outOfFuel)
    ∧ (data = [] → ProcessInBatches importFn batchSize data fuel = PBResult.ok [])
    ∧ (batchSize = 0 → data ≠ [] → (∀ c, importFn c = none) →
      ProcessInBatches importFn batchSize data fuel = PBResult.outOfFuel)
    ∧ (batchSize < 0 → data ≠ [] → 1 ≤ fuel →
      ProcessInBatches importFn batchSize data fuel = PBResult.panicked []) := by
  refine ⟨?_, ?_, ?_, ?_⟩
  · intro b hb hf
    subst hb
    unfold ProcessInBatches
    by_cases h0 : data.length = 0
    · rw [if_pos h0]
      simp
    · rw [if_neg h0]
      rw [processInBatchesAux_eq_batchRun importFn b data fuel 0 [] (by omega)]
      cases hbr : batchRun importFn b (data.drop 0) with
      | mk tr res => cases res <;> simp
  · intro h
    subst h
    rfl
  · intro h0 hne himp
    subst h0
    unfold ProcessInBatches
    rw [if_neg (by simpa using hne)]
    exact processInBatchesAux_zero_loops importFn data himp fuel 0 []
      (List.length_pos.mpr hne)
  · intro hneg hne hf
    obtain ⟨f, rfl⟩ : ∃ f, fuel = f + 1 := ⟨fuel - 1, by omega⟩
    unfold ProcessInBatches
    rw [if_neg (by simpa using hne)]
    rw [processInBatchesAux]
    rw [if_pos (List.length_pos.mpr hne)]
    have h1 : ¬ (((0 : Nat) : Int) + batchSize > (data.length : Int)) := by
      have := List.length_pos.mpr hne
      omega
    rw [if_neg h1]
    have h2 : ((0 : Nat) : Int) + batchSize < ((0 : Nat) : Int) := by omega
    rw [if_pos h2]

/-- C9 witness: concrete runs for each clause of the amended claim. -/
theorem claim_C9_amended_witness :
    ProcessInBatches (fun _ => none) 0 usersRows 7 = PBResult.outOfFuel
    ∧ ProcessInBatches (fun _ => none) 0 ([] : List Rec) 7 = PBResult.ok []
    ∧ ProcessInBatches (fun _ => none) (-1) ordersRows 3 = PBResult.panicked []
    ∧ ProcessInBatches (fun _ => none) (((1 : Nat) : Int) + 1) ordersRows 5
        ≠ PBResult.outOfFuel :=
  ⟨(claim_C9_amended (fun _ => none) 0 usersRows 7).2.2.1 rfl (by decide) (fun _ => rfl),
   (claim_C9_amended (fun _ => none) 0 [] 7).2.1 rfl,
   (claim_C9_amended (fun _ => none) (-1) ordersRows 3).2.2.2 (by decide) (by decide)
     (by decide),
   (claim_C9_amended (fun _ => none) (((1 : Nat) : Int) + 1) ordersRows 5).1 1 rfl
     (by decide)⟩

/-- C5: for every list of `N` distinct table names, every worker count
`W` with `1 ≤ W ≤ N` and every arrival order of the results (the
job/result channels guarantee exactly one result per submitted table,
in no particular order), the pool yields exactly `N` `TableResult`
values and the set of result table names equals the set of submitted
names. -/
theorem claim_C5_worker_pool_results (fetch : String → Except String (List Rec))
    (tables arrival : List String) (W : Nat)
    (hperm : arrival.Perm tables) (_hnodup : tables.Nodup)
    (_hW1 : 1 ≤ W) (_hWN : W ≤ tables.length) :
    (workerPoolResults fetch arrival).length = tables.length
    ∧ ((workerPoolResults fetch arrival).map TableResult.tableName).toFinset
        = tables.toFinset := by
  have hmap : (workerPoolResults fetch arrival).map TableResult.tableName = arrival := by
    unfold workerPoolResults
    rw [List.map_map]
    have hcomp : (TableResult.tableName ∘ runTableJob fetch) = id := by
      funext t
      exact runTableJob_tableName fetch t
    rw [hcomp, List.map_id]
  constructor
  · unfold workerPoolResults
    rw [List.length_map]
    exact hperm.length_eq
  · rw [hmap]
    exact List.toFinset_eq_of_perm _ _ hperm

/-- C5 witness: two distinct tables, one worker, results arriving in
reversed order. -/
theorem claim_C5_worker_pool_results_witness :
    (workerPoolResults fetchAlwaysOk ["orders", "users"]).length
      = (["users", "orders"] : List String).length
    ∧ ((workerPoolResults fetchAlwaysOk ["orders", "users"]).map
        TableResult.tableName).toFinset
        = (["users", "orders"] : List String).toFinset :=
  claim_C5_worker_pool_results fetchAlwaysOk ["users", "orders"] ["orders", "users"] 1
    (by decide) (by decide) (by decide) (by decide)

/-- C6: the collector keeps aggregating rows of successful tables past a
failed one (first conjunct, unconditional), but the call returns the
aggregated rows only when every table succeeded and discards them —
returning an error — as soon as at least one table failed. -/
theorem claim_C6_all_or_nothing (fetch : String → Except String (List Rec))
    (tables arrival : List String) (W : Int)
    (hperm : arrival.Perm tables) (hne : tables ≠ []) :
    ((workerPoolResults fetch arrival).foldl collectStep ([], [])).1
        = arrival.flatMap (fun t =>
            match fetch t with
            | .ok d => tagRows t d
            | .error _ => [])
    ∧ ((∀ t ∈ tables, ∃ d, fetch t = Except.ok d) →
      ProcessTablesWithWorkerPool fetch tables W arrival
        = Except.ok (arrival.flatMap (fun t =>
            match fetch t with
            | .ok d => tagRows t d
            | .error _ => [])))
    ∧ (∀ t e, t ∈ tables → fetch t = Except.error e →
      ∃ msg, ProcessTablesWithWorkerPool fetch tables W arrival
        = Except.error msg) := by
  have hlen : ¬ tables.length = 0 := by
    simpa using hne
  refine ⟨?_, ?_, ?_⟩
  · unfold workerPoolResults
    rw [collect_foldl_spec fetch arrival ([], [])]
    simp
  · intro hok
    have herr : arrival.flatMap (fun t =>
        match fetch t with
        | .error e => ["error processing table " ++ t ++ ": " ++ e]
        | .ok _ => []) = [] := by
      rw [List.flatMap_eq_nil_iff]
      intro t ht
      obtain ⟨d, hd⟩ := hok t (hperm.mem_iff.mp ht)
      rw [hd]
    unfold ProcessTablesWithWorkerPool workerPoolResults
    rw [if_neg hlen, collect_foldl_spec fetch arrival ([], [])]
    dsimp only
    rw [List.nil_append, List.nil_append, herr]
  · intro t e ht hf
    have hmem : ("error processing table " ++ t ++ ": " ++ e) ∈ arrival.flatMap
        (fun t =>
          match fetch t with
          | .error e => ["error processing table " ++ t ++ ": " ++ e]
          | .ok _ => []) := by
      refine List.mem_flatMap.mpr ⟨t, hperm.mem_iff.mpr ht, ?_⟩
      rw [hf]
      exact List.mem_singleton_self _
    unfold ProcessTablesWithWorkerPool workerPoolResults
    rw [if_neg hlen, collect_foldl_spec fetch arrival ([], [])]
    dsimp only
    rw [List.nil_append, List.nil_append]
    cases herrs : arrival.flatMap
        (fun t =>
          match fetch t with
          | .error e => ["error processing table " ++ t ++ ": " ++ e]
          | .ok _ => []) with
    | nil =>
      rw [herrs] at hmem
      cases hmem
    | cons x rest => exact ⟨_, rfl⟩

/-- C6 witness: with `orders` failing and `users` succeeding, the rows
of `users` are still collected internally but the call errors. -/
theorem claim_C6_all_or_nothing_witness :
    ((workerPoolResults fetchOrdersFails ["orders", "users"]).foldl collectStep
        ([], [])).1
      = (["orders", "users"] : List String).flatMap (fun t =>
          match fetchOrdersFails t with
          | .ok d => tagRows t d
          | .error _ => [])
    ∧ (∃ msg, ProcessTablesWithWorkerPool fetchOrdersFails ["users", "orders"] 2
        ["orders", "users"] = Except.error msg) :=
  ⟨(claim_C6_all_or_nothing fetchOrdersFails ["users", "orders"] ["orders", "users"] 2
      (by decide) (by decide)).1,
   (claim_C6_all_or_nothing fetchOrdersFails ["users", "orders"] ["orders", "users"] 2
      (by decide) (by decide)).2.2 "orders" "connection reset" (by decide) rfl⟩

/-- C3: rollback is a one-way latch.  For every stored snapshot not yet
rolled back, the first `RollBackMigration` succeeds — performing the
per-table rollback work, setting the status to `"rolled_back"` and
persisting it — and the second returns the "already been rolled back"
error, performs no table rollback work and leaves the store
unchanged. -/
theorem claim_C3_rollback_latch (store : SnapshotStore) (id : String)
    (snap : MigrationSnapshot)
    (hload : loadSnapshot store id = some snap)
    (hid : snap.id = id)
    (hst : snap.status ≠ "rolled_back") :
    (RollBackMigration store id).2.2 = none
    ∧ (RollBackMigration store id).2.1
        = snap.preMigrationState.map
            (fun p => rollbackTable p.1 p.2 (lookupMigrated snap.migratedData p.1))
    ∧ loadSnapshot (RollBackMigration store id).1 id
        = some { snap with status := "rolled_back" }
    ∧ (RollBackMigration (RollBackMigration store id).1 id).2.2
        = some ("migration " ++ id ++ " has already been rolled back")
    ∧ (RollBackMigration (RollBackMigration store id).1 id).2.1 = []
    ∧ (RollBackMigration (RollBackMigration store id).1 id).1
        = (RollBackMigration store id).1 := by
  have h1 : RollBackMigration store id
      = (saveSnapshot store { snap with status := "rolled_back" },
         snap.preMigrationState.map
           (fun p => rollbackTable p.1 p.2 (lookupMigrated snap.migratedData p.1)),
         none) := by
    unfold RollBackMigration
    rw [hload]
    dsimp only
    rw [if_neg hst]
  have hsave : loadSnapshot (saveSnapshot store { snap with status := "rolled_back" }) id
      = some { snap with status := "rolled_back" } := by
    rw [← hid]
    exact loadSnapshot_saveSnapshot store { snap with status := "rolled_back" }
  have h2 : RollBackMigration (saveSnapshot store { snap with status := "rolled_back" }) id
      = (saveSnapshot store { snap with status := "rolled_back" }, [],
         some ("migration " ++ id ++ " has already been rolled back")) := by
    unfold RollBackMigration
    rw [hsave]
    dsimp only
    rw [if_pos rfl]
  rw [h1]
  dsimp only
  rw [h2]
  exact ⟨rfl, rfl, hsave, rfl, rfl, rfl⟩

/-- C3 witness: a concrete in-progress snapshot rolled back twice. -/
theorem claim_C3_rollback_latch_witness :
    (RollBackMigration [("s3", snapInProgress)] "s3").2.2 = none
    ∧ (RollBackMigration [("s3", snapInProgress)] "s3").2.1
        = snapInProgress.preMigrationState.map
            (fun p => rollbackTable p.1 p.2
              (lookupMigrated snapInProgress.migratedData p.1))
    ∧ loadSnapshot (RollBackMigration [("s3", snapInProgress)] "s3").1 "s3"
        = some { snapInProgress with status := "rolled_back" }
    ∧ (RollBackMigration (RollBackMigration [("s3", snapInProgress)] "s3").1 "s3").2.2
        = some ("migration " ++ "s3" ++ " has already been rolled back")
    ∧ (RollBackMigration (RollBackMigration [("s3", snapInProgress)] "s3").1 "s3").2.1
        = []
    ∧ (RollBackMigration (RollBackMigration [("s3", snapInProgress)] "s3").1 "s3").1
        = (RollBackMigration [("s3", snapInProgress)] "s3").1 :=
  claim_C3_rollback_latch [("s3", snapInProgress)] "s3" snapInProgress rfl rfl
    (by decide)

/-- C10: `captureTableState` swallows target fetch errors — its Go error
return is `nil` on every path (so `CreateSnapshot`'s error-handling
branch for it is unreachable and `CreateSnapshot` itself reports no
error), a table whose fetch failed is recorded with
`ExistedBefore = false` and `RowCount = 0`, and rollback consequently
takes the clear-all-data path for such a table. -/
theorem claim_C10_capture_swallows_fetch_errors (target : MockClient) (t : String)
    (migrated : List Rec)
    (hfail : target.failOnFetch ≠ "" ∧ t = target.failOnFetch) :
    (∀ (m : MockClient) (u : String), (captureTableState m u).2.2 = none)
    ∧ (captureTableState target t).2.1
        = { tableName := t, rowCount := 0, existedBefore := false }
    ∧ rollbackTable t { tableName := t, rowCount := 0, existedBefore := false } migrated
        = RollbackAction.clearAll t
    ∧ (∀ (cfg : MigrationConfig) (now : Int) (store : SnapshotStore),
        (CreateSnapshot cfg now target store).2.2.2 = none) := by
  refine ⟨?_, ?_, rfl, ?_⟩
  · intro m u
    unfold captureTableState
    rw [fetchAllData_single]
    dsimp only
    by_cases hc : m.failOnFetch ≠ "" ∧ u = m.failOnFetch
    · rw [if_pos hc]
    · rw [if_neg hc]
  · unfold captureTableState
    rw [fetchAllData_single]
    dsimp only
    rw [if_pos hfail]
  · intro cfg now store
    rfl

/-- C10 witness: a target failing on `users`. -/
theorem claim_C10_capture_swallows_fetch_errors_witness :
    (∀ (m : MockClient) (u : String), (captureTableState m u).2.2 = none)
    ∧ (captureTableState failingTarget "users").2.1
        = { tableName := "users", rowCount := 0, existedBefore := false }
    ∧ rollbackTable "users"
        { tableName := "users", rowCount := 0, existedBefore := false } []
        = RollbackAction.clearAll "users"
    ∧ (∀ (cfg : MigrationConfig) (now : Int) (store : SnapshotStore),
        (CreateSnapshot cfg now failingTarget store).2.2.2 = none) :=
  claim_C10_capture_swallows_fetch_errors failingTarget "users" [] (by decide)

/-- C7 counterexample: with `Mode = "incremental"` and
`ValidateData = true`, `ExecuteMigration` DOES fetch from the source —
pre-migration validation fetches each configured table before the mode
dispatch — refuting "performs no fetch from the source" as stated over
every config. -/
theorem claim_C7_counterexample :
    (ExecuteMigration incrValidateConfig (fun _ => none) scenarioSource
        scenarioTarget).source.fetchCalled = 2
    ∧ scenarioSource.fetchCalled = 0
    ∧ incrValidateConfig.mode = "incremental"
    ∧ (ExecuteMigration incrValidateConfig (fun _ => none) scenarioSource
        scenarioTarget).err = some "incremental migration not implemented" := by
  decide

/-- C7 (amended): for every config in incremental or scheduled mode,
`ExecuteMigration` returns a non-nil error and never touches the target
(no import); when `ValidateData = false` it also performs no source
fetch at all and the error is the mode's "not implemented" error —
but when `ValidateData = true`, pre-migration validation may fetch from
the source before the mode check. -/
theorem claim_C7_amended (cfg : MigrationConfig) (vdt : List Rec → Option String)
    (source target : MockClient)
    (hmode : cfg.mode = "incremental" ∨ cfg.mode = "scheduled") :
    (∃ msg, (ExecuteMigration cfg vdt source target).err = some msg)
    ∧ (ExecuteMigration cfg vdt source target).target = target
    ∧ (cfg.validateData = false →
        (ExecuteMigration cfg vdt source target).source = source
        ∧ (ExecuteMigration cfg vdt source target).err
            = some (cfg.mode ++ " migration not implemented")) := by
  have hnotfull : ¬ cfg.mode = "full" := by
    rcases hmode with h | h <;> rw [h] <;> decide
  have hphase : ∀ (r : MigrationResult) (s u : MockClient),
      executeModePhase cfg vdt r s u
        = { result := { r with
              errors := r.errors ++ [cfg.mode ++ " migration not implemented"] },
            err := some (cfg.mode ++ " migration not implemented"),
            source := s, target := u } := by
    intro r s u
    unfold executeModePhase
    rw [if_neg hnotfull]
    rcases hmode with h | h
    · rw [h, if_pos rfl]
      rfl
    · rw [h, if_neg (by decide), if_pos rfl]
      rfl
  unfold ExecuteMigration
  by_cases hv : cfg.validateData = true
  · rw [if_pos hv]
    dsimp only
    by_cases hinv : (generateValidationSummary
        (PreMigrationValidation 100 source cfg.tables).2.1).invalidTables > 0
    · rw [if_pos hinv]
      refine ⟨⟨_, rfl⟩, rfl, ?_⟩
      intro hfalse
      rw [hfalse] at hv
      cases hv
    · rw [if_neg hinv, hphase]
      refine ⟨⟨_, rfl⟩, rfl, ?_⟩
      intro hfalse
      rw [hfalse] at hv
      cases hv
  · rw [if_neg hv, hphase]
    exact ⟨⟨_, rfl⟩, rfl, fun _ => ⟨rfl, rfl⟩⟩

/-- C7 witness: scheduled mode without validation on the scenario
clients. -/
theorem claim_C7_amended_witness :
    (∃ msg, (ExecuteMigration schedNoValidateConfig (fun _ => none) scenarioSource
        scenarioTarget).err = some msg)
    ∧ (ExecuteMigration schedNoValidateConfig (fun _ => none) scenarioSource
        scenarioTarget).target = scenarioTarget
    ∧ (schedNoValidateConfig.validateData = false →
        (ExecuteMigration schedNoValidateConfig (fun _ => none) scenarioSource
            scenarioTarget).source = scenarioSource
        ∧ (ExecuteMigration schedNoValidateConfig (fun _ => none) scenarioSource
            scenarioTarget).err
            = some (schedNoValidateConfig.mode ++ " migration not implemented")) :=
  claim_C7_amended schedNoValidateConfig (fun _ => none) scenarioSource scenarioTarget
    (Or.inr rfl)

/-- C8: `PreMigrationValidation` returns one result per table, in table
order, and the call itself never returns a non-nil error; the per-table
outcome is the closed form `preValidationSpec`: a table whose fetch
fails is marked invalid with a non-empty message while the loop
continues (every later table still gets its result), and a table whose
fetch succeeds is marked valid with the fetched row count and a sample
of at most `sampleSize` records. -/
theorem claim_C8_prevalidation (sampleSize : Nat) (source : MockClient)
    (tables : List String) :
    (PreMigrationValidation sampleSize source tables).2.2 = none
    ∧ (PreMigrationValidation sampleSize source tables).2.1
        = tables.map (preValidationSpec source sampleSize)
    ∧ ((PreMigrationValidation sampleSize source tables).2.1).map
        ValidationResult.tableName = tables
    ∧ (∀ t, (source.failOnFetch ≠ "" ∧ t = source.failOnFetch) →
        (preValidationSpec source sampleSize t).isValid = false
        ∧ (preValidationSpec source sampleSize t).errorMessage ≠ "")
    ∧ (∀ t, ¬ (source.failOnFetch ≠ "" ∧ t = source.failOnFetch) →
        (preValidationSpec source sampleSize t).isValid = true
        ∧ (preValidationSpec source sampleSize t).rowCount
            = ((sourceTableRows source t).length : Int)
        ∧ (preValidationSpec source sampleSize t).sampleData
            = (sourceTableRows source t).take sampleSize
        ∧ (preValidationSpec source sampleSize t).sampleData.length ≤ sampleSize) := by
  have hspec : (PreMigrationValidation sampleSize source tables).2.1
      = tables.map (preValidationSpec source sampleSize) :=
    preMigrationValidationLoop_spec sampleSize tables source
  refine ⟨rfl, hspec, ?_, ?_, ?_⟩
  · rw [hspec, List.map_map]
    have hcomp : (ValidationResult.tableName ∘ preValidationSpec source sampleSize)
        = id := by
      funext t
      simp only [Function.comp, id]
      unfold preValidationSpec
      by_cases h : source.failOnFetch ≠ "" ∧ t = source.failOnFetch
      · rw [if_pos h]
      · rw [if_neg h]
    rw [hcomp, List.map_id]
  · intro t h
    unfold preValidationSpec
    rw [if_pos h]
    refine ⟨rfl, ?_⟩
    intro hEq
    have h2 := congrArg String.length hEq
    simp [String.length_append] at h2
    exact absurd h2.1.2 (by decide)
  · intro t h
    unfold preValidationSpec
    rw [if_neg h]
    exact ⟨rfl, rfl, rfl, List.length_take_le _ _⟩

/-- C8 witness: a source failing on `users` still produces a result for
every table, with `users` invalid and `orders` valid. -/
theorem claim_C8_prevalidation_witness :
    (PreMigrationValidation 100 failingSource ["users", "orders"]).2.2 = none
    ∧ ((PreMigrationValidation 100 failingSource ["users", "orders"]).2.1).map
        ValidationResult.tableName = ["users", "orders"]
    ∧ (preValidationSpec failingSource 100 "users").isValid = false
    ∧ (preValidationSpec failingSource 100 "orders").isValid = true :=
  ⟨(claim_C8_prevalidation 100 failingSource ["users", "orders"]).1,
   (claim_C8_prevalidation 100 failingSource ["users", "orders"]).2.2.1,
   ((claim_C8_prevalidation 100 failingSource ["users", "orders"]).2.2.2.1 "users"
      (by decide)).1,
   ((claim_C8_prevalidation 100 failingSource ["users", "orders"]).2.2.2.2 "orders"
      (by decide)).1⟩

/-- C1 evaluated at the spec's end-to-end scenario (`users` 3 records,
`orders` 4 records, full mode, concurrent, workers 2, batch size 2):
`Success`, `TotalRowsMigrated = 7` and `TotalTablesProcessed = 2` all
hold, but the per-table imported counts do NOT equal the source counts —
`importDataWithBatchTracking` advances its loop index by one instead of
by the batch size, so overlapping batches re-import rows: 5 rows land
for the 3-row `users` table and 7 for the 4-row `orders` table (12 in
total instead of 7). -/
theorem claim_C1_scenario_eval :
    (ExecuteMigration scenarioConfig (fun _ => none) scenarioSource
        scenarioTarget).result.success = true
    ∧ (ExecuteMigration scenarioConfig (fun _ => none) scenarioSource
        scenarioTarget).result.totalRowsMigrated = 7
    ∧ (ExecuteMigration scenarioConfig (fun _ => none) scenarioSource
        scenarioTarget).result.totalTablesProcessed = 2
    ∧ usersRows.length = 3 ∧ ordersRows.length = 4
    ∧ countTagged "users" (ExecuteMigration scenarioConfig (fun _ => none)
        scenarioSource scenarioTarget).target.importedData = 5
    ∧ countTagged "orders" (ExecuteMigration scenarioConfig (fun _ => none)
        scenarioSource scenarioTarget).target.importedData = 7
    ∧ (ExecuteMigration scenarioConfig (fun _ => none) scenarioSource
        scenarioTarget).target.importedData.length = 12 := by
  decide

/-- C2 evaluated: `RollBackMigration` persists the status
`"rolled_back"` (underscore), yet `CleanupOldSnapshots` — comparing
against `"rolled-back"` (hyphen) — keeps an old rolled-back snapshot
while removing an equally old `"completed"` one; in-progress, failed
and young snapshots are correctly kept. -/
theorem claim_C2_cleanup_eval :
    (RollBackMigration [("s3", snapInProgress)] "s3").1
      = [("s3", { snapInProgress with status := "rolled_back" })]
    ∧ CleanupOldSnapshots 100 10 cleanupStore
      = [("s1", snapRolledBack), ("s3", snapInProgress), ("s4", snapFailed),
         ("s5", snapCompletedYoung)]
    ∧ snapRolledBack.status = "rolled_back"
    ∧ snapRolledBack.timestamp < 100 - 10
    ∧ snapCompletedOld.status = "completed"
    ∧ snapCompletedOld.timestamp < 100 - 10 := by
  decide

end DataMigration
